import Mathlib

/-!
Shallow embedding of the core simulation of the Virtual-Bot-Environment-3D
repository (`vbe_3d/core/robot.py`, `vbe_3d/core/world.py`,
`vbe_3d/core/static_element.py`).

Modelling conventions:
* Python floats are embedded as exact rationals (`ℚ`); the operations the
  claims are about (clamping with `max`/`min`, comparisons, sums of products)
  are exact in this fragment.
* `math.dist(a, b) < r` is embedded as `distSq a b < r^2` (squaring is
  strictly monotone on nonnegative reals, and the axis-aligned unit moves of
  `Robot.act` have Euclidean length exactly 1).
* Python's `int()` truncates toward zero; it is embedded as `pyInt`.
* Python dicts keyed by `Robot` objects are embedded as association lists
  keyed by the robot's `id` (ids are unique per object).
* Mutation is embedded as explicit state passing: a method that mutates
  `self` (and possibly `other`) returns the updated record(s).
* A Python exception is embedded as `Except.error` / the `PRes.exn` result;
  the `for other in self.robots` reproduction loop of `World.step` can grow
  the list it iterates (Python list iterators see appended elements), so it
  is embedded with an explicit fuel argument, `PRes.out` marking exhaustion.
-/

/-- Python `int()` on a float: truncation toward zero. -/
def pyInt (q : ℚ) : ℤ := if q < 0 then ⌈q⌉ else ⌊q⌋

/-- 3D vector of rationals, embedding `ursina.Vec3` / position tuples. -/
abbrev V3 : Type := ℚ × ℚ × ℚ

/-- Squared Euclidean distance (embeds `math.dist` via its square). -/
def distSq (p q : V3) : ℚ :=
  (p.1 - q.1)^2 + (p.2.1 - q.2.1)^2 + (p.2.2 - q.2.2)^2

/-- Grid cell of a position: `map(lambda p: int(p), obj.position)` in
`World._update_spatial_index`. -/
def gridKey (p : V3) : ℤ × ℤ × ℤ := (pyInt p.1, pyInt p.2.1, pyInt p.2.2)

/-- `range(a, b)` over integers. -/
def intRange (a b : ℤ) : List ℤ := (List.range (b - a).toNat).map (fun (k : ℕ) => a + (k : ℤ))

/-- Association-list lookup, embedding Python dict lookup keyed by robot id. -/
def dlookup : ℕ → List (ℕ × ℕ) → Option ℕ
  | _, [] => none
  | k, p :: t => if k = p.1 then some p.2 else dlookup k t

/-- Python dict assignment `d[k] = v`: replace the binding if present,
otherwise append it. -/
def dictInsert (d : List (ℕ × ℕ)) (k v : ℕ) : List (ℕ × ℕ) :=
  if (dlookup k d).isSome then d.map (fun p => if p.1 = k then (k, v) else p)
  else d ++ [(k, v)]

/-- Python dict deletion `del d[k]` (a no-op when the key is absent, which the
source guards for explicitly where it matters). -/
def dictErase (d : List (ℕ × ℕ)) (k : ℕ) : List (ℕ × ℕ) :=
  d.filter (fun p => p.1 ≠ k)

theorem dlookup_append (d e : List (ℕ × ℕ)) (k : ℕ) :
    dlookup k (d ++ e) =
      match dlookup k d with
      | some v => some v
      | none => dlookup k e := by
  induction d with
  | nil => simp [dlookup]
  | cons p t ih =>
    by_cases hk : k = p.1
    · simp [dlookup, hk]
    · simp [dlookup, hk, ih]

theorem dlookup_cons (k : ℕ) (p : ℕ × ℕ) (t : List (ℕ × ℕ)) :
    dlookup k (p :: t) = if k = p.1 then some p.2 else dlookup k t := rfl

theorem dlookup_replace (t : List (ℕ × ℕ)) (k v k' : ℕ) :
    dlookup k' (t.map (fun p => if p.1 = k then (k, v) else p)) =
      if k' = k then (if (dlookup k t).isSome then some v else none)
      else dlookup k' t := by
  induction t with
  | nil => simp [dlookup]
  | cons p t ih =>
    rw [List.map_cons]
    by_cases hp : p.1 = k
    · rw [if_pos hp]
      have hkt : dlookup k (p :: t) = some p.2 := by
        rw [dlookup_cons, if_pos hp.symm]
      by_cases hk : k' = k
      · subst hk
        rw [dlookup_cons, if_pos rfl, hkt, if_pos rfl]
        simp
      · have hk1 : k' ≠ p.1 := fun h => hk (h.trans hp)
        have hrhs : dlookup k' (p :: t) = dlookup k' t := by
          rw [dlookup_cons, if_neg hk1]
        rw [dlookup_cons, if_neg hk, hrhs, ih, if_neg hk, if_neg hk]
    · rw [if_neg hp]
      have hkt : dlookup k (p :: t) = dlookup k t := by
        rw [dlookup_cons, if_neg (fun h => hp h.symm)]
      by_cases hk : k' = p.1
      · have hkk : k' ≠ k := fun h => hp (hk.symm.trans h)
        rw [dlookup_cons, if_pos hk, if_neg hkk, dlookup_cons, if_pos hk]
      · have hrhs : dlookup k' (p :: t) = dlookup k' t := by
          rw [dlookup_cons, if_neg hk]
        rw [dlookup_cons, if_neg hk, hrhs, ih, hkt]

theorem dlookup_dictInsert_self (d : List (ℕ × ℕ)) (k v : ℕ) :
    dlookup k (dictInsert d k v) = some v := by
  unfold dictInsert
  split_ifs with h
  · simp [dlookup_replace, h]
  · rw [dlookup_append]
    rcases hd : dlookup k d with _ | w
    · simp [dlookup]
    · exact absurd (by simp [hd]) h

theorem dlookup_dictInsert_ne (d : List (ℕ × ℕ)) (k v k' : ℕ) (h : k' ≠ k) :
    dlookup k' (dictInsert d k v) = dlookup k' d := by
  unfold dictInsert
  split_ifs with hs
  · simp [dlookup_replace, h]
  · rw [dlookup_append]
    rcases hd : dlookup k' d with _ | w
    · simp [dlookup, h]
    · simp

theorem dlookup_dictErase_self (d : List (ℕ × ℕ)) (k : ℕ) :
    dlookup k (dictErase d k) = none := by
  induction d with
  | nil => rfl
  | cons p t ih =>
    by_cases hp : p.1 = k
    · simpa [dictErase, hp] using ih
    · have hk : k ≠ p.1 := fun h => hp h.symm
      simpa [dictErase, hp, dlookup, hk] using ih

theorem dlookup_dictErase_ne (d : List (ℕ × ℕ)) (k k' : ℕ) (h : k' ≠ k) :
    dlookup k' (dictErase d k) = dlookup k' d := by
  induction d with
  | nil => rfl
  | cons p t ih =>
    by_cases hp : p.1 = k
    · simpa [dictErase, hp, dlookup, h] using ih
    · by_cases hk : k' = p.1
      · simp [dictErase, hp, dlookup, hk]
      · simpa [dictErase, hp, dlookup, hk] using ih

/-- `RobotState` (`robot.py`); `auto()` numbers the members 1..5, exposed by
`stateVal` (used by `perceive` as `state.value`). -/
inductive RobotState where
  | idle
  | moving
  | collecting
  | reproducing
  | dead
deriving DecidableEq

/-- `RobotState.value`: `auto()` assigns 1, 2, 3, 4, 5. -/
def stateVal : RobotState → ℕ
  | .idle => 1
  | .moving => 2
  | .collecting => 3
  | .reproducing => 4
  | .dead => 5

/-- `RobotStats` dataclass (`robot.py`). -/
structure RobotStats where
  distanceTraveled : ℚ
  resourcesCollected : ℕ
  connectionsMade : ℕ
  offspringProduced : ℕ
  energyConsumed : ℚ
  lifetime : ℕ
deriving DecidableEq

/-- The dataclass defaults: all counters zero. -/
def statsZero : RobotStats :=
  { distanceTraveled := 0, resourcesCollected := 0, connectionsMade := 0,
    offspringProduced := 0, energyConsumed := 0, lifetime := 0 }

/-- `Robot` (`robot.py`).  The `connections` dict (keyed by `Robot` objects)
is embedded as an association list keyed by the peer robot's `id`; the brain
(a separate pluggable object in the source) is carried by the `World`. -/
structure Robot where
  id : ℕ
  pos : V3
  color : V3
  energy : ℚ
  maxEnergy : ℚ
  movementCost : ℚ
  reproductionThreshold : ℚ
  connections : List (ℕ × ℕ)
  state : RobotState
  stats : RobotStats
deriving DecidableEq

/-- `Robot.act` (`robot.py` lines 173-215).  Action 0 is a no-op that sets
the state to Idle; actions 1..6 translate the position by ±1 along x, z, y;
any other action moves nothing but still runs the statistics / energy /
death-check tail of the method.  `math.dist(old_pos, new_pos)` is exactly 1
for a mapped movement action and exactly 0 otherwise. -/
def Robot.act (r : Robot) (action : ℤ) : Robot :=
  if action = 0 then { r with state := RobotState.idle }
  else
    let newPos : V3 :=
      if action = 1 then (r.pos.1 + 1, r.pos.2.1, r.pos.2.2)
      else if action = 2 then (r.pos.1 - 1, r.pos.2.1, r.pos.2.2)
      else if action = 3 then (r.pos.1, r.pos.2.1, r.pos.2.2 + 1)
      else if action = 4 then (r.pos.1, r.pos.2.1, r.pos.2.2 - 1)
      else if action = 5 then (r.pos.1, r.pos.2.1 + 1, r.pos.2.2)
      else if action = 6 then (r.pos.1, r.pos.2.1 - 1, r.pos.2.2)
      else r.pos
    let moveDist : ℚ := if 1 ≤ action ∧ action ≤ 6 then 1 else 0
    let newEnergy : ℚ := max 0 (r.energy - r.movementCost)
    { r with
      pos := newPos,
      energy := newEnergy,
      state := if newEnergy ≤ 0 then RobotState.dead else RobotState.moving,
      stats := { r.stats with
        distanceTraveled := r.stats.distanceTraveled + moveDist,
        energyConsumed := r.stats.energyConsumed + r.movementCost,
        lifetime := r.stats.lifetime + 1 } }

/-- `Robot.collect_resource` (`robot.py` lines 296-304). -/
def Robot.collect_resource (r : Robot) (value : ℚ) : Robot :=
  { r with
    state := RobotState.collecting,
    energy := min r.maxEnergy (r.energy + value),
    stats := { r.stats with resourcesCollected := r.stats.resourcesCollected + 1 } }

/-- `Robot.connect` (`robot.py` lines 217-232).  `ConnectionLevel.WEAK.value`
is 1 and `ConnectionLevel.PERMANENT.value` is 4.  Returns the updated
`(self, other)` pair (the source mutates both objects). -/
def Robot.connect (a b : Robot) : Robot × Robot :=
  match dlookup b.id a.connections with
  | none =>
    ({ a with connections := dictInsert a.connections b.id 1,
              stats := { a.stats with connectionsMade := a.stats.connectionsMade + 1 } },
     { b with connections := dictInsert b.connections a.id 1 })
  | some level =>
    if level < 4 then
      ({ a with connections := dictInsert a.connections b.id (level + 1) },
       { b with connections := dictInsert b.connections a.id (level + 1) })
    else (a, b)

/-- `Robot.disconnect` (`robot.py` lines 234-251).  A PERMANENT (4) edge is
untouched; above WEAK (1) both sides are decremented; at WEAK the edge is
deleted on both sides (the source checks `self in other.connections` before
the second delete; deleting an absent key is the identity here). -/
def Robot.disconnect (a b : Robot) : Robot × Robot :=
  match dlookup b.id a.connections with
  | none => (a, b)
  | some level =>
    if level = 4 then (a, b)
    else if 1 < level then
      ({ a with connections := dictInsert a.connections b.id (level - 1) },
       { b with connections := dictInsert b.connections a.id (level - 1) })
    else
      ({ a with connections := dictErase a.connections b.id },
       { b with connections := dictErase b.connections a.id })

/-- `Robot.reproduce` (`robot.py` lines 253-294).  Fails when either party's
energy is below the *initiator's* `reproduction_threshold` (the source
compares `partner.energy` against `self.reproduction_threshold`).  On
success the initiator's state and offspring counter are updated and a child
is constructed (`Robot.__init__`: full energy, Idle, zero stats, no
connections, the initiator's configuration and position, averaged color).
The partner object is never mutated; it is returned unchanged as the third
component.  `childId` stands for the global `_robot_id_counter` draw. -/
def Robot.reproduce (self partner : Robot) (childId : ℕ) : Option Robot × Robot × Robot :=
  if self.energy < self.reproductionThreshold ∨ partner.energy < self.reproductionThreshold then
    (none, self, partner)
  else
    (some
      { id := childId,
        pos := self.pos,
        color := ((self.color.1 + partner.color.1) / 2,
                  (self.color.2.1 + partner.color.2.1) / 2,
                  (self.color.2.2 + partner.color.2.2) / 2),
        energy := self.maxEnergy,
        maxEnergy := self.maxEnergy,
        movementCost := self.movementCost,
        reproductionThreshold := self.reproductionThreshold,
        connections := [],
        state := RobotState.idle,
        stats := statsZero },
     { self with
        state := RobotState.reproducing,
        stats := { self.stats with offspringProduced := self.stats.offspringProduced + 1 } },
     partner)

/-- One core agent operation, for stating properties about sequences of
`Robot.act` / `Robot.collect_resource` calls. -/
inductive AgentOp where
  | act : ℤ → AgentOp
  | collect : ℚ → AgentOp

/-- Resource values handed to `collect_resource` by `World.step` come from
`StaticElement.resource_value`; a well-formed operation carries a
nonnegative value. -/
def AgentOp.valOK : AgentOp → Prop
  | .act _ => True
  | .collect v => 0 ≤ v

instance : DecidablePred AgentOp.valOK := fun op =>
  match op with
  | .act _ => (inferInstance : Decidable True)
  | .collect v => (inferInstance : Decidable (0 ≤ v))

def applyAgentOp (r : Robot) : AgentOp → Robot
  | .act a => r.act a
  | .collect v => r.collect_resource v

def applyAgentOps (r : Robot) (ops : List AgentOp) : Robot :=
  ops.foldl applyAgentOp r

/-- Pointwise update of an id-indexed robot store (object mutation). -/
def updStore (s : ℕ → Robot) (i : ℕ) (r : Robot) : ℕ → Robot :=
  fun t => if t = i then r else s t

/-- One connection operation between the robots with store indices `i`, `j`:
`(s i).connect (s j)` or `(s i).disconnect (s j)`, both objects written
back. -/
inductive ConnOp where
  | conn : ℕ → ℕ → ConnOp
  | disc : ℕ → ℕ → ConnOp

/-- The source only ever connects two distinct robot objects
(`other != robot` in `World.step`). -/
def ConnOp.valid : ConnOp → Prop
  | .conn i j => i ≠ j
  | .disc i j => i ≠ j

instance : DecidablePred ConnOp.valid := fun op =>
  match op with
  | .conn i j => (inferInstance : Decidable (i ≠ j))
  | .disc i j => (inferInstance : Decidable (i ≠ j))

def applyConnOp (s : ℕ → Robot) : ConnOp → (ℕ → Robot)
  | .conn i j => updStore (updStore s i (Robot.connect (s i) (s j)).1) j (Robot.connect (s i) (s j)).2
  | .disc i j => updStore (updStore s i (Robot.disconnect (s i) (s j)).1) j (Robot.disconnect (s i) (s j)).2

def applyConnOps (s : ℕ → Robot) (ops : List ConnOp) : ℕ → Robot :=
  ops.foldl applyConnOp s

/-- The store index of each robot is its id (object identity ↔ id). -/
def idCoherent (s : ℕ → Robot) : Prop := ∀ t, (s t).id = t

/-- Connection symmetry: `A.connections.get(B) == B.connections.get(A)`. -/
def symmConn (s : ℕ → Robot) : Prop :=
  ∀ x y, dlookup y (s x).connections = dlookup x (s y).connections

/-- Every stored connection strength lies between WEAK (1) and PERMANENT (4). -/
def levelsOK (s : ℕ → Robot) : Prop :=
  ∀ x y l, dlookup y (s x).connections = some l → 1 ≤ l ∧ l ≤ 4

/-- `StaticElement` (`static_element.py`), with its `ResourceProperties`
dataclass flattened in (`propValue` is `properties.value`, the original
amount; `currentUses` is `properties.current_uses`).  `resource_type` /
`is_obstacle` do not affect the modelled behaviour but are kept as data. -/
structure StaticElement where
  pos : V3
  color : V3
  resourceValue : ℚ
  propValue : ℚ
  decayRate : ℚ
  respawnTime : Option ℤ
  maxUses : Option ℕ
  currentUses : ℕ
  isObstacle : Bool
  isCollectible : Bool
  respawnTimer : Option ℤ
deriving DecidableEq

instance : Inhabited StaticElement :=
  ⟨{ pos := (0, 0, 0), color := (9/10, 3/5, 1/10), resourceValue := 20,
     propValue := 20, decayRate := 0, respawnTime := none, maxUses := none,
     currentUses := 0, isObstacle := false, isCollectible := true,
     respawnTimer := none }⟩

/-- `StaticElement.collect` (`static_element.py` lines 74-94): returns the
value collected together with the element's state after the call. -/
def StaticElement.collect (e : StaticElement) : ℚ × StaticElement :=
  if e.isCollectible = true then
    let value := e.resourceValue
    let e1 :=
      match e.maxUses with
      | some m =>
        let e' := { e with currentUses := e.currentUses + 1 }
        if m ≤ e'.currentUses then { e' with isCollectible := false } else e'
      | none => e
    let e2 :=
      match e1.respawnTime with
      | some t => { e1 with respawnTimer := some t, isCollectible := false }
      | none => e1
    (value, e2)
  else (0, e)

/-- A generic indexed entity: the spatial-index functions only use an
object's identity and its position. -/
structure Entity where
  id : ℕ
  pos : V3
deriving DecidableEq

/-- `World._update_spatial_index` (`world.py` lines 63-72): clear the index
and bucket every object by the truncated grid cell of its position.  The
index is represented as the (cell → bucket) function it computes. -/
def buildIndex {α : Type} (posOf : α → V3) (objs : List α) : (ℤ × ℤ × ℤ) → List α :=
  objs.foldl
    (fun idx o => fun key => if key = gridKey (posOf o) then idx key ++ [o] else idx key)
    (fun _ => [])

/-- `World._get_nearby_objects` (`world.py` lines 74-93): union of the
buckets of all cells within `int(radius)` cells of the centre's cell along
each axis (`range(-int(radius), int(radius)+1)` per axis); the source
accumulates into a `set`, embedded here as a deduplicated list in scan
order. -/
def getNearby {α : Type} [DecidableEq α] (idx : (ℤ × ℤ × ℤ) → List α)
    (center : V3) (radius : ℚ) : List α :=
  ((intRange (-(pyInt radius)) (pyInt radius + 1)).flatMap (fun dx =>
    (intRange (-(pyInt radius)) (pyInt radius + 1)).flatMap (fun dy =>
      (intRange (-(pyInt radius)) (pyInt radius + 1)).flatMap (fun dz =>
        idx (pyInt center.1 + dx, pyInt center.2.1 + dy, pyInt center.2.2 + dz))))).dedup

/-- A reference held by the spatial index / world object lists: either the
robot with a given id or the static element at a given list position. -/
inductive WObj where
  | rob : ℕ → WObj
  | elt : ℕ → WObj
deriving DecidableEq

/-- `hasattr(e, 'resource_value')` in `Robot.perceive`: true exactly for
static elements. -/
def isResourceObj : WObj → Bool
  | .rob _ => false
  | .elt _ => true

/-- `WorldStats` dataclass (`world.py`). -/
structure WorldStats where
  steps : ℕ
  robotsCreated : ℕ
  robotsDestroyed : ℕ
  resourcesCollected : ℕ
  connectionsMade : ℕ
  offspringProduced : ℕ
deriving DecidableEq

def worldStatsZero : WorldStats :=
  { steps := 0, robotsCreated := 0, robotsDestroyed := 0,
    resourcesCollected := 0, connectionsMade := 0, offspringProduced := 0 }

/-- `World` (`world.py`).  `robots` is the list of robot ids in list order,
`store` resolves an id to the robot object's current state (object identity
↔ id), `brains` resolves a robot id to its brain's `decide_action` (a
pluggable collaborator; raising is `Except.error`), and `nextId` is the
global `_robot_id_counter`.  The engine is an external collaborator whose
calls have no effect on this state. -/
structure World where
  robots : List ℕ
  store : ℕ → Robot
  staticElements : List StaticElement
  brains : ℕ → List ℚ → Except Unit ℤ
  stats : WorldStats
  timeStep : ℕ
  spatialIndex : (ℤ × ℤ × ℤ) → List WObj
  nextId : ℕ

/-- The objects `self.robots + self.static_elements` iterated by
`_update_spatial_index`, as references. -/
def World.wobjs (w : World) : List WObj :=
  w.robots.map WObj.rob ++ (List.range w.staticElements.length).map WObj.elt

/-- Position of a referenced object. -/
def World.wobjPos (w : World) : WObj → V3
  | .rob i => (w.store i).pos
  | .elt j => (w.staticElements.getD j default).pos

/-- `World._update_spatial_index` at the world level. -/
def World.updateSpatialIndex (w : World) : World :=
  { w with spatialIndex := buildIndex w.wobjPos w.wobjs }

/-- `World.add_robot` (`world.py` lines 95-103): append, notify the engine,
bump the created counter.  (The id counter `nextId` is advanced where the
`Robot` is constructed, i.e. in the reproduction branch of `step`.) -/
def World.addRobot (w : World) (r : Robot) : World :=
  { w with
    robots := w.robots ++ [r.id],
    store := updStore w.store r.id r,
    stats := { w.stats with robotsCreated := w.stats.robotsCreated + 1 } }

/-- `World.remove_robot` (`world.py` lines 105-114): remove from the list
(first occurrence), notify the engine, bump the destroyed counter; nothing
else — in particular no other robot's `connections` map is touched. -/
def World.removeRobot (w : World) (rid : ℕ) : World :=
  if rid ∈ w.robots then
    { w with
      robots := w.robots.erase rid,
      stats := { w.stats with robotsDestroyed := w.stats.robotsDestroyed + 1 } }
  else w

/-- `Robot.perceive` (`robot.py` lines 90-171).  Both nearest-object scans
query `world._get_nearby_objects(self.position, 10.0)`; minima are tracked
with a strict `<` (first found wins), compared here on squared distances.
The source iterates a Python set; the scan order used here is the cell-scan
order of `getNearby`. -/
def World.perceive (w : World) (rid : ℕ) : List ℚ :=
  let selfR := w.store rid
  let nearby := getNearby w.spatialIndex selfR.pos 10
  let resScan := nearby.foldl
    (fun acc o =>
      if isResourceObj o then
        match acc with
        | none => some (o, distSq selfR.pos (w.wobjPos o))
        | some pr =>
          if distSq selfR.pos (w.wobjPos o) < pr.2 then
            some (o, distSq selfR.pos (w.wobjPos o))
          else acc
      else acc)
    none
  let botScan := nearby.foldl
    (fun acc o =>
      match o with
      | WObj.rob i =>
        if i ≠ rid then
          match acc with
          | none => some (o, distSq selfR.pos (w.wobjPos o))
          | some pr =>
            if distSq selfR.pos (w.wobjPos o) < pr.2 then
              some (o, distSq selfR.pos (w.wobjPos o))
            else acc
        else acc
      | WObj.elt _ => acc)
    none
  (match resScan with
   | some pr =>
     [(w.wobjPos pr.1).1 - selfR.pos.1,
      (w.wobjPos pr.1).2.1 - selfR.pos.2.1,
      (w.wobjPos pr.1).2.2 - selfR.pos.2.2]
   | none => [0, 0, 0]) ++
  (match botScan with
   | some pr =>
     [(w.wobjPos pr.1).1 - selfR.pos.1,
      (w.wobjPos pr.1).2.1 - selfR.pos.2.1,
      (w.wobjPos pr.1).2.2 - selfR.pos.2.2]
   | none => [0, 0, 0]) ++
  [selfR.energy / selfR.maxEnergy,
   (selfR.connections.length : ℚ) / 10,
   (stateVal selfR.state : ℚ) / 5]

/-- Result of running possibly-raising, possibly-diverging Python code:
a value, a propagating exception, or fuel exhaustion (the reproduction loop
of `World.step` iterates a list it may keep growing). -/
inductive PRes (α : Type) where
  | val : α → PRes α
  | exn : PRes α
  | out : PRes α

/-- The resource-collection loop of `World.step` (lines 157-162): for every
static element closer than 1.0 to the robot's (current) position, collect
its `resource_value` and bump the world counter. -/
def collectLoop (w : World) (rid : ℕ) : World :=
  w.staticElements.foldl
    (fun wa e =>
      if distSq (wa.store rid).pos e.pos < 1 then
        { wa with
          store := updStore wa.store rid ((wa.store rid).collect_resource e.resourceValue),
          stats := { wa.stats with resourcesCollected := wa.stats.resourcesCollected + 1 } }
      else wa)
    w

/-- The connection loop of `World.step` (lines 164-168): for every other
robot closer than 2.0, `robot.connect(other)` and bump the world counter. -/
def connectLoop (w : World) (rid : ℕ) : World :=
  w.robots.foldl
    (fun wa oid =>
      if oid ≠ rid ∧ distSq (wa.store rid).pos (wa.store oid).pos < 4 then
        { wa with
          store := updStore (updStore wa.store rid (Robot.connect (wa.store rid) (wa.store oid)).1)
                     oid (Robot.connect (wa.store rid) (wa.store oid)).2,
          stats := { wa.stats with connectionsMade := wa.stats.connectionsMade + 1 } }
      else wa)
    w

/-- The reproduction loop of `World.step` (lines 170-176): `for other in
self.robots` iterates the *live* list by index, so children appended by
`add_robot` during the loop are themselves visited; `fuel` bounds the number
of iterations (the source can loop forever here). -/
def reproLoop (rid : ℕ) : ℕ → ℕ → World → PRes World
  | 0, _, _ => PRes.out
  | fuel + 1, i, w =>
    if h : i < w.robots.length then
      let oid := w.robots.get ⟨i, h⟩
      if oid ≠ rid ∧ distSq (w.store rid).pos (w.store oid).pos < 1 then
        match Robot.reproduce (w.store rid) (w.store oid) w.nextId with
        | (some child, self1, partner1) =>
          let w1 := { w with store := updStore (updStore w.store rid self1) oid partner1,
                             nextId := w.nextId + 1 }
          let w2 := World.addRobot w1 child
          let w3 := { w2 with
            stats := { w2.stats with offspringProduced := w2.stats.offspringProduced + 1 } }
          reproLoop rid fuel (i + 1) w3
        | (none, self1, partner1) =>
          reproLoop rid fuel (i + 1)
            { w with store := updStore (updStore w.store rid self1) oid partner1 }
      else reproLoop rid fuel (i + 1) w
    else PRes.val w

/-- One robot's turn inside `World.step` (lines 140-176): prune if Dead,
else perceive → decide (a raising brain propagates) → act → collection loop
→ connection loop → reproduction loop. -/
def World.stepOne (w : World) (fuel : ℕ) (rid : ℕ) : PRes World :=
  if (w.store rid).state = RobotState.dead then
    PRes.val (w.removeRobot rid)
  else
    match w.brains rid (w.perceive rid) with
    | Except.error _ => PRes.exn
    | Except.ok action =>
      let w1 := { w with store := updStore w.store rid ((w.store rid).act action) }
      let w2 := collectLoop w1 rid
      let w3 := connectLoop w2 rid
      reproLoop rid fuel 0 w3

/-- The per-robot loop of `World.step` over the snapshot `self.robots[:]`. -/
def World.stepAux (fuel : ℕ) : List ℕ → World → PRes World
  | [], w => PRes.val w
  | rid :: rest, w =>
    match w.stepOne fuel rid with
    | PRes.val w1 => World.stepAux fuel rest w1
    | PRes.exn => PRes.exn
    | PRes.out => PRes.out

/-- `World.step` (`world.py` lines 135-176): bump the step counter, then
process each robot of the snapshot.  Note: the method never touches
`_spatial_index` (in particular it never calls `_update_spatial_index`). -/
def World.step (fuel : ℕ) (w : World) : PRes World :=
  World.stepAux fuel w.robots
    { w with stats := { w.stats with steps := w.stats.steps + 1 } }

theorem act_maxEnergy (r : Robot) (a : ℤ) : (Robot.act r a).maxEnergy = r.maxEnergy := by
  unfold Robot.act
  split_ifs <;> rfl

theorem act_movementCost (r : Robot) (a : ℤ) : (Robot.act r a).movementCost = r.movementCost := by
  unfold Robot.act
  split_ifs <;> rfl

theorem collect_maxEnergy (r : Robot) (v : ℚ) : (Robot.collect_resource r v).maxEnergy = r.maxEnergy := rfl

theorem collect_movementCost (r : Robot) (v : ℚ) : (Robot.collect_resource r v).movementCost = r.movementCost := rfl

theorem act_energy (r : Robot) (a : ℤ) :
    (Robot.act r a).energy = if a = 0 then r.energy else max 0 (r.energy - r.movementCost) := by
  unfold Robot.act
  by_cases h : a = 0 <;> simp [h]

theorem act_energy_bounds (r : Robot) (a : ℤ) (hmc : 0 ≤ r.movementCost)
    (h0 : 0 ≤ r.energy) (h1 : r.energy ≤ r.maxEnergy) :
    0 ≤ (Robot.act r a).energy ∧ (Robot.act r a).energy ≤ r.maxEnergy := by
  rw [act_energy]
  split_ifs with h
  · exact ⟨h0, h1⟩
  · constructor
    · exact le_max_left 0 (r.energy - r.movementCost)
    · exact max_le (h0.trans h1) (by linarith)

theorem collect_energy_bounds (r : Robot) (v : ℚ) (hv : 0 ≤ v)
    (h0 : 0 ≤ r.energy) (h1 : r.energy ≤ r.maxEnergy) :
    0 ≤ (Robot.collect_resource r v).energy ∧
      (Robot.collect_resource r v).energy ≤ r.maxEnergy := by
  refine ⟨le_min (h0.trans h1) (by linarith), min_le_left _ _⟩

theorem applyAgentOp_maxEnergy (r : Robot) (op : AgentOp) :
    (applyAgentOp r op).maxEnergy = r.maxEnergy := by
  cases op with
  | act a => exact act_maxEnergy r a
  | collect v => exact collect_maxEnergy r v

theorem applyAgentOp_movementCost (r : Robot) (op : AgentOp) :
    (applyAgentOp r op).movementCost = r.movementCost := by
  cases op with
  | act a => exact act_movementCost r a
  | collect v => exact collect_movementCost r v

/-- C1: the core agent operations preserve the energy bounds: `Robot.act`
floors energy at 0.0 when the movement cost is subtracted, and
`Robot.collect_resource` caps energy at `max_energy`, so any sequence of
`act` / `collect_resource` calls (with the nonnegative movement cost and
resource values the world supplies) started from `energy ∈ [0, max_energy]`
keeps `energy ∈ [0, max_energy]`. -/
theorem energy_invariant (r : Robot) (ops : List AgentOp)
    (hmc : 0 ≤ r.movementCost) (hops : ∀ op ∈ ops, op.valOK)
    (h0 : 0 ≤ r.energy) (h1 : r.energy ≤ r.maxEnergy) :
    0 ≤ (applyAgentOps r ops).energy ∧
      (applyAgentOps r ops).energy ≤ (applyAgentOps r ops).maxEnergy := by
  induction ops generalizing r with
  | nil => exact ⟨h0, h1⟩
  | cons op t ih =>
    have hstep : 0 ≤ (applyAgentOp r op).energy ∧ (applyAgentOp r op).energy ≤ (applyAgentOp r op).maxEnergy := by
      cases op with
      | act a =>
        rw [applyAgentOp, act_maxEnergy]
        exact act_energy_bounds r a hmc h0 h1
      | collect v =>
        rw [applyAgentOp, collect_maxEnergy]
        have hv : (AgentOp.collect v).valOK := hops _ (by simp)
        exact collect_energy_bounds r v hv h0 h1
    have hmc1 : 0 ≤ (applyAgentOp r op).movementCost := by
      rw [applyAgentOp_movementCost]; exact hmc
    have hops1 : ∀ o ∈ t, o.valOK := fun o ho => hops o (by simp [ho])
    have := ih (applyAgentOp r op) hmc1 hops1 hstep.1
      ((applyAgentOp_maxEnergy r op) ▸ hstep.2)
    simpa [applyAgentOps] using this

/-- Witness for C1 at a concrete robot and operation sequence. -/
theorem energy_invariant_witness :
    0 ≤ (applyAgentOps
          { id := 0, pos := (0, 0, 0), color := (1/5, 4/5, 1/5), energy := 50,
            maxEnergy := 100, movementCost := 1, reproductionThreshold := 20,
            connections := [], state := RobotState.idle, stats := statsZero }
          [AgentOp.act 1, AgentOp.collect 5, AgentOp.act 2]).energy ∧
    (applyAgentOps
          { id := 0, pos := (0, 0, 0), color := (1/5, 4/5, 1/5), energy := 50,
            maxEnergy := 100, movementCost := 1, reproductionThreshold := 20,
            connections := [], state := RobotState.idle, stats := statsZero }
          [AgentOp.act 1, AgentOp.collect 5, AgentOp.act 2]).energy ≤
      (applyAgentOps
          { id := 0, pos := (0, 0, 0), color := (1/5, 4/5, 1/5), energy := 50,
            maxEnergy := 100, movementCost := 1, reproductionThreshold := 20,
            connections := [], state := RobotState.idle, stats := statsZero }
          [AgentOp.act 1, AgentOp.collect 5, AgentOp.act 2]).maxEnergy :=
  energy_invariant _ _ (by norm_num)
    (by intro op hop; fin_cases hop <;> simp [AgentOp.valOK])
    (by norm_num) (by norm_num)

theorem updStore_eval (s : ℕ → Robot) (i : ℕ) (r : Robot) (t : ℕ) :
    updStore s i r t = if t = i then r else s t := rfl

/-- Writing back a pair of robots that agree with the old store except on
their mutual edge, where both store the same value, preserves symmetry. -/
theorem symmConn_update2 (s : ℕ → Robot) (i j : ℕ) (hs : symmConn s) (A B : Robot)
    (hAold : ∀ y, y ≠ j → dlookup y A.connections = dlookup y (s i).connections)
    (hBold : ∀ y, y ≠ i → dlookup y B.connections = dlookup y (s j).connections)
    (hedge : dlookup j A.connections = dlookup i B.connections) :
    symmConn (updStore (updStore s i A) j B) := by
  intro x y
  show dlookup y (if x = j then B else if x = i then A else s x).connections =
       dlookup x (if y = j then B else if y = i then A else s y).connections
  rcases eq_or_ne i j with hij | hij
  · rw [hij] at hBold ⊢
    rcases eq_or_ne x j with hxj | hxj
    · rw [hxj, if_pos rfl]
      rcases eq_or_ne y j with hyj | hyj
      · rw [hyj, if_pos rfl]
      · rw [if_neg hyj, if_neg hyj, hBold y hyj, hs]
    · rw [if_neg hxj, if_neg hxj]
      rcases eq_or_ne y j with hyj | hyj
      · rw [hyj, if_pos rfl, hBold x hxj, hs]
      · rw [if_neg hyj, if_neg hyj, hs]
  · rcases eq_or_ne x j with hxj | hxj
    · rw [hxj, if_pos rfl]
      rcases eq_or_ne y j with hyj | hyj
      · rw [hyj, if_pos rfl]
      · rw [if_neg hyj]
        rcases eq_or_ne y i with hyi | hyi
        · rw [hyi, if_pos rfl]
          exact hedge.symm
        · rw [if_neg hyi, hBold y hyi, hs]
    · rw [if_neg hxj]
      rcases eq_or_ne x i with hxi | hxi
      · rw [hxi, if_pos rfl]
        rcases eq_or_ne y j with hyj | hyj
        · rw [hyj, if_pos rfl]
          exact hedge
        · rw [if_neg hyj]
          rcases eq_or_ne y i with hyi | hyi
          · rw [hyi, if_pos rfl]
          · rw [if_neg hyi, hAold y hyj, hs]
      · rw [if_neg hxi]
        rcases eq_or_ne y j with hyj | hyj
        · rw [hyj, if_pos rfl, hBold x hxi, hs]
        · rw [if_neg hyj]
          rcases eq_or_ne y i with hyi | hyi
          · rw [hyi, if_pos rfl, hAold x hxj, hs]
          · rw [if_neg hyi, hs]

theorem connect_fst_id (a b : Robot) : (Robot.connect a b).1.id = a.id := by
  unfold Robot.connect
  rcases hl : dlookup b.id a.connections with _ | l
  · rfl
  · dsimp only
    split_ifs <;> rfl

theorem connect_snd_id (a b : Robot) : (Robot.connect a b).2.id = b.id := by
  unfold Robot.connect
  rcases hl : dlookup b.id a.connections with _ | l
  · rfl
  · dsimp only
    split_ifs <;> rfl

theorem disconnect_fst_id (a b : Robot) : (Robot.disconnect a b).1.id = a.id := by
  unfold Robot.disconnect
  rcases hl : dlookup b.id a.connections with _ | l
  · rfl
  · dsimp only
    split_ifs <;> rfl

theorem disconnect_snd_id (a b : Robot) : (Robot.disconnect a b).2.id = b.id := by
  unfold Robot.disconnect
  rcases hl : dlookup b.id a.connections with _ | l
  · rfl
  · dsimp only
    split_ifs <;> rfl

theorem applyConnOp_id (s : ℕ → Robot) (op : ConnOp) (hid : idCoherent s) :
    idCoherent (applyConnOp s op) := by
  cases op with
  | conn i j =>
    intro t
    show (if t = j then (Robot.connect (s i) (s j)).2
          else if t = i then (Robot.connect (s i) (s j)).1 else s t).id = t
    split_ifs with h1 h2
    · rw [connect_snd_id, hid j, h1]
    · rw [connect_fst_id, hid i, h2]
    · exact hid t
  | disc i j =>
    intro t
    show (if t = j then (Robot.disconnect (s i) (s j)).2
          else if t = i then (Robot.disconnect (s i) (s j)).1 else s t).id = t
    split_ifs with h1 h2
    · rw [disconnect_snd_id, hid j, h1]
    · rw [disconnect_fst_id, hid i, h2]
    · exact hid t

theorem symmConn_applyConnOp (s : ℕ → Robot) (op : ConnOp)
    (hid : idCoherent s) (hs : symmConn s) : symmConn (applyConnOp s op) := by
  cases op with
  | conn i j =>
    have hi : (s i).id = i := hid i
    have hj : (s j).id = j := hid j
    show symmConn (updStore (updStore s i (Robot.connect (s i) (s j)).1)
                    j (Robot.connect (s i) (s j)).2)
    rcases hl : dlookup j (s i).connections with _ | l
    · have hc : Robot.connect (s i) (s j) =
        ({ s i with connections := dictInsert (s i).connections j 1,
                    stats := { (s i).stats with
                      connectionsMade := (s i).stats.connectionsMade + 1 } },
         { s j with connections := dictInsert (s j).connections i 1 }) := by
        simp only [Robot.connect, hl, hj, hi]
      rw [hc]
      refine symmConn_update2 s i j hs _ _ ?_ ?_ ?_
      · intro y hy
        exact dlookup_dictInsert_ne _ _ _ _ hy
      · intro y hy
        exact dlookup_dictInsert_ne _ _ _ _ hy
      · rw [dlookup_dictInsert_self, dlookup_dictInsert_self]
    · by_cases h4 : l < 4
      · have hc : Robot.connect (s i) (s j) =
          ({ s i with connections := dictInsert (s i).connections j (l + 1) },
           { s j with connections := dictInsert (s j).connections i (l + 1) }) := by
          simp only [Robot.connect, hl, hj, hi, h4, if_true]
        rw [hc]
        refine symmConn_update2 s i j hs _ _ ?_ ?_ ?_
        · intro y hy
          exact dlookup_dictInsert_ne _ _ _ _ hy
        · intro y hy
          exact dlookup_dictInsert_ne _ _ _ _ hy
        · rw [dlookup_dictInsert_self, dlookup_dictInsert_self]
      · have hc : Robot.connect (s i) (s j) = (s i, s j) := by
          simp only [Robot.connect, hj, hi, hl, h4, if_false]
        rw [hc]
        refine symmConn_update2 s i j hs _ _ ?_ ?_ ?_
        · intro y hy
          rfl
        · intro y hy
          rfl
        · exact hs i j
  | disc i j =>
    have hi : (s i).id = i := hid i
    have hj : (s j).id = j := hid j
    show symmConn (updStore (updStore s i (Robot.disconnect (s i) (s j)).1)
                    j (Robot.disconnect (s i) (s j)).2)
    rcases hl : dlookup j (s i).connections with _ | l
    · have hc : Robot.disconnect (s i) (s j) = (s i, s j) := by
        simp only [Robot.disconnect, hj, hi, hl]
      rw [hc]
      refine symmConn_update2 s i j hs _ _ ?_ ?_ ?_
      · intro y hy
        rfl
      · intro y hy
        rfl
      · exact hs i j
    · by_cases h4 : l = 4
      · have hc : Robot.disconnect (s i) (s j) = (s i, s j) := by
          simp only [Robot.disconnect, hj, hi, hl, h4, if_true]
        rw [hc]
        refine symmConn_update2 s i j hs _ _ ?_ ?_ ?_
        · intro y hy
          rfl
        · intro y hy
          rfl
        · exact hs i j
      · by_cases h1 : 1 < l
        · have hc : Robot.disconnect (s i) (s j) =
            ({ s i with connections := dictInsert (s i).connections j (l - 1) },
             { s j with connections := dictInsert (s j).connections i (l - 1) }) := by
            simp only [Robot.disconnect, hl, hj, hi, h4, h1, if_true, if_false]
          rw [hc]
          refine symmConn_update2 s i j hs _ _ ?_ ?_ ?_
          · intro y hy
            exact dlookup_dictInsert_ne _ _ _ _ hy
          · intro y hy
            exact dlookup_dictInsert_ne _ _ _ _ hy
          · rw [dlookup_dictInsert_self, dlookup_dictInsert_self]
        · have hc : Robot.disconnect (s i) (s j) =
            ({ s i with connections := dictErase (s i).connections j },
             { s j with connections := dictErase (s j).connections i }) := by
            simp only [Robot.disconnect, hl, hj, hi, h4, h1, if_true, if_false]
          rw [hc]
          refine symmConn_update2 s i j hs _ _ ?_ ?_ ?_
          · intro y hy
            exact dlookup_dictErase_ne _ _ _ hy
          · intro y hy
            exact dlookup_dictErase_ne _ _ _ hy
          · rw [dlookup_dictErase_self, dlookup_dictErase_self]

/-- Writing back a pair of robots whose maps agree with the old store except
on their mutual edge, where any stored value is in [1, 4], preserves the
level bounds. -/
theorem levelsOK_update2 (s : ℕ → Robot) (i j : ℕ) (hlev : levelsOK s) (A B : Robot)
    (hAold : ∀ y, y ≠ j → dlookup y A.connections = dlookup y (s i).connections)
    (hBold : ∀ y, y ≠ i → dlookup y B.connections = dlookup y (s j).connections)
    (hAedge : ∀ l, dlookup j A.connections = some l → 1 ≤ l ∧ l ≤ 4)
    (hBedge : ∀ l, dlookup i B.connections = some l → 1 ≤ l ∧ l ≤ 4) :
    levelsOK (updStore (updStore s i A) j B) := by
  intro x y l
  show dlookup y (if x = j then B else if x = i then A else s x).connections = some l →
    1 ≤ l ∧ l ≤ 4
  intro h
  by_cases hxj : x = j
  · rw [if_pos hxj] at h
    by_cases hyi : y = i
    · exact hBedge l (hyi ▸ h)
    · rw [hBold y hyi] at h
      exact hlev j y l h
  · rw [if_neg hxj] at h
    by_cases hxi : x = i
    · rw [if_pos hxi] at h
      by_cases hyj : y = j
      · exact hAedge l (hyj ▸ h)
      · rw [hAold y hyj] at h
        exact hlev i y l h
    · rw [if_neg hxi] at h
      exact hlev x y l h

theorem levelsOK_applyConnOp (s : ℕ → Robot) (op : ConnOp)
    (hid : idCoherent s) (hlev : levelsOK s) : levelsOK (applyConnOp s op) := by
  cases op with
  | conn i j =>
    have hi : (s i).id = i := hid i
    have hj : (s j).id = j := hid j
    show levelsOK (updStore (updStore s i (Robot.connect (s i) (s j)).1)
                    j (Robot.connect (s i) (s j)).2)
    rcases hl : dlookup j (s i).connections with _ | l
    · have hc : Robot.connect (s i) (s j) =
        ({ s i with connections := dictInsert (s i).connections j 1,
                    stats := { (s i).stats with
                      connectionsMade := (s i).stats.connectionsMade + 1 } },
         { s j with connections := dictInsert (s j).connections i 1 }) := by
        simp only [Robot.connect, hl, hj, hi]
      rw [hc]
      refine levelsOK_update2 s i j hlev _ _ ?_ ?_ ?_ ?_
      · intro y hy
        exact dlookup_dictInsert_ne _ _ _ _ hy
      · intro y hy
        exact dlookup_dictInsert_ne _ _ _ _ hy
      · intro m hm
        rw [dlookup_dictInsert_self] at hm
        cases hm
        omega
      · intro m hm
        rw [dlookup_dictInsert_self] at hm
        cases hm
        omega
    · by_cases h4 : l < 4
      · have hc : Robot.connect (s i) (s j) =
          ({ s i with connections := dictInsert (s i).connections j (l + 1) },
           { s j with connections := dictInsert (s j).connections i (l + 1) }) := by
          simp only [Robot.connect, hl, hj, hi, h4, if_true]
        rw [hc]
        refine levelsOK_update2 s i j hlev _ _ ?_ ?_ ?_ ?_
        · intro y hy
          exact dlookup_dictInsert_ne _ _ _ _ hy
        · intro y hy
          exact dlookup_dictInsert_ne _ _ _ _ hy
        · intro m hm
          rw [dlookup_dictInsert_self] at hm
          cases hm
          omega
        · intro m hm
          rw [dlookup_dictInsert_self] at hm
          cases hm
          omega
      · have hc : Robot.connect (s i) (s j) = (s i, s j) := by
          simp only [Robot.connect, hj, hi, hl, h4, if_false]
        rw [hc]
        refine levelsOK_update2 s i j hlev _ _ ?_ ?_ ?_ ?_
        · intro y hy
          rfl
        · intro y hy
          rfl
        · intro m hm
          exact hlev i j m hm
        · intro m hm
          exact hlev j i m hm
  | disc i j =>
    have hi : (s i).id = i := hid i
    have hj : (s j).id = j := hid j
    show levelsOK (updStore (updStore s i (Robot.disconnect (s i) (s j)).1)
                    j (Robot.disconnect (s i) (s j)).2)
    rcases hl : dlookup j (s i).connections with _ | l
    · have hc : Robot.disconnect (s i) (s j) = (s i, s j) := by
        simp only [Robot.disconnect, hj, hi, hl]
      rw [hc]
      refine levelsOK_update2 s i j hlev _ _ ?_ ?_ ?_ ?_
      · intro y hy
        rfl
      · intro y hy
        rfl
      · intro m hm
        exact hlev i j m hm
      · intro m hm
        exact hlev j i m hm
    · by_cases h4 : l = 4
      · have hc : Robot.disconnect (s i) (s j) = (s i, s j) := by
          simp only [Robot.disconnect, hj, hi, hl, h4, if_true]
        rw [hc]
        refine levelsOK_update2 s i j hlev _ _ ?_ ?_ ?_ ?_
        · intro y hy
          rfl
        · intro y hy
          rfl
        · intro m hm
          exact hlev i j m hm
        · intro m hm
          exact hlev j i m hm
      · by_cases h1 : 1 < l
        · have hb : 1 ≤ l ∧ l ≤ 4 := hlev i j l hl
          have hc : Robot.disconnect (s i) (s j) =
            ({ s i with connections := dictInsert (s i).connections j (l - 1) },
             { s j with connections := dictInsert (s j).connections i (l - 1) }) := by
            simp only [Robot.disconnect, hl, hj, hi, h4, h1, if_true, if_false]
          rw [hc]
          refine levelsOK_update2 s i j hlev _ _ ?_ ?_ ?_ ?_
          · intro y hy
            exact dlookup_dictInsert_ne _ _ _ _ hy
          · intro y hy
            exact dlookup_dictInsert_ne _ _ _ _ hy
          · intro m hm
            rw [dlookup_dictInsert_self] at hm
            cases hm
            omega
          · intro m hm
            rw [dlookup_dictInsert_self] at hm
            cases hm
            omega
        · have hc : Robot.disconnect (s i) (s j) =
            ({ s i with connections := dictErase (s i).connections j },
             { s j with connections := dictErase (s j).connections i }) := by
            simp only [Robot.disconnect, hl, hj, hi, h4, h1, if_true, if_false]
          rw [hc]
          refine levelsOK_update2 s i j hlev _ _ ?_ ?_ ?_ ?_
          · intro y hy
            exact dlookup_dictErase_ne _ _ _ hy
          · intro y hy
            exact dlookup_dictErase_ne _ _ _ hy
          · intro m hm
            rw [dlookup_dictErase_self] at hm
            cases hm
          · intro m hm
            rw [dlookup_dictErase_self] at hm
            cases hm

theorem applyConnOps_id (s : ℕ → Robot) (ops : List ConnOp) (hid : idCoherent s) :
    idCoherent (applyConnOps s ops) := by
  induction ops generalizing s with
  | nil => exact hid
  | cons op t ih => exact ih (applyConnOp s op) (applyConnOp_id s op hid)

/-- C2: connection symmetry is preserved by every sequence of
`Robot.connect` / `Robot.disconnect` calls between (distinct) robots:
starting from symmetric connection maps, `A.connections` contains `B` iff
`B.connections` contains `A`, with the same stored strength level. -/
theorem connection_symmetry (s : ℕ → Robot) (ops : List ConnOp)
    (hid : idCoherent s) (hops : ∀ op ∈ ops, op.valid) (hs : symmConn s) :
    symmConn (applyConnOps s ops) := by
  induction ops generalizing s with
  | nil => exact hs
  | cons op t ih =>
    exact ih (applyConnOp s op) (applyConnOp_id s op hid)
      (fun o ho => hops o (by simp [ho]))
      (symmConn_applyConnOp s op hid hs)

/-- Witness for C2: two fresh robots, one `connect` call. -/
theorem connection_symmetry_witness :
    symmConn (applyConnOps
      (fun t => { id := t, pos := (0, 0, 0), color := (1/5, 4/5, 1/5), energy := 100,
                  maxEnergy := 100, movementCost := 1, reproductionThreshold := 20,
                  connections := [], state := RobotState.idle, stats := statsZero })
      [ConnOp.conn 0 1, ConnOp.conn 0 1, ConnOp.disc 0 1]) :=
  connection_symmetry _ _ (fun t => rfl) (by decide) (fun x y => rfl)

/-- C10: every stored connection strength stays in [WEAK, PERMANENT] =
[1, 4]: `connect` creates edges at 1 and never increments past 4, and
`disconnect` deletes at 1 rather than storing anything below it, across any
sequence of (distinct-endpoint) `connect` / `disconnect` calls. -/
theorem connection_levels_bounded (s : ℕ → Robot) (ops : List ConnOp)
    (hid : idCoherent s) (hops : ∀ op ∈ ops, op.valid) (hlev : levelsOK s) :
    levelsOK (applyConnOps s ops) := by
  induction ops generalizing s with
  | nil => exact hlev
  | cons op t ih =>
    exact ih (applyConnOp s op) (applyConnOp_id s op hid)
      (fun o ho => hops o (by simp [ho]))
      (levelsOK_applyConnOp s op hid hlev)

/-- Witness for C10: two fresh robots, a connect/connect/disconnect run. -/
theorem connection_levels_bounded_witness :
    levelsOK (applyConnOps
      (fun t => { id := t, pos := (1, 0, 0), color := (1/5, 4/5, 1/5), energy := 100,
                  maxEnergy := 100, movementCost := 1, reproductionThreshold := 20,
                  connections := [], state := RobotState.idle, stats := statsZero })
      [ConnOp.conn 2 3, ConnOp.conn 2 3, ConnOp.disc 2 3]) :=
  connection_levels_bounded _ _ (fun t => rfl) (by decide)
    (fun x y l h => by cases h)

theorem mem_intRange (a b x : ℤ) : x ∈ intRange a b ↔ a ≤ x ∧ x < b := by
  constructor
  · intro hx
    rcases List.mem_map.mp hx with ⟨k, hk, rfl⟩
    rw [List.mem_range] at hk
    omega
  · intro h
    exact List.mem_map.mpr ⟨(x - a).toNat, List.mem_range.mpr (by omega), by omega⟩

theorem mem_buildIndex_aux {α : Type} (posOf : α → V3) (objs : List α)
    (idx0 : (ℤ × ℤ × ℤ) → List α) (o : α) (k : ℤ × ℤ × ℤ) :
    o ∈ (objs.foldl
          (fun idx o2 => fun key => if key = gridKey (posOf o2) then idx key ++ [o2] else idx key)
          idx0) k ↔
      o ∈ idx0 k ∨ (o ∈ objs ∧ k = gridKey (posOf o)) := by
  induction objs generalizing idx0 with
  | nil => simp
  | cons h t ih =>
    rw [List.foldl_cons, ih]
    by_cases hk : k = gridKey (posOf h)
    · rw [if_pos hk]
      constructor
      · rintro (hm | hm)
        · rw [List.mem_append, List.mem_singleton] at hm
          rcases hm with hm | hm
          · exact Or.inl hm
          · subst hm
            exact Or.inr ⟨List.mem_cons_self _ _, hk⟩
        · exact Or.inr ⟨List.mem_cons_of_mem _ hm.1, hm.2⟩
      · rintro (hm | ⟨hmem, hkey⟩)
        · exact Or.inl (List.mem_append.mpr (Or.inl hm))
        · rcases List.mem_cons.mp hmem with rfl | hmem
          · exact Or.inl (List.mem_append.mpr (Or.inr (List.mem_singleton.mpr rfl)))
          · exact Or.inr ⟨hmem, hkey⟩
    · rw [if_neg hk]
      constructor
      · rintro (hm | hm)
        · exact Or.inl hm
        · exact Or.inr ⟨List.mem_cons_of_mem _ hm.1, hm.2⟩
      · rintro (hm | ⟨hmem, hkey⟩)
        · exact Or.inl hm
        · rcases List.mem_cons.mp hmem with rfl | hmem
          · exact absurd hkey hk
          · exact Or.inr ⟨hmem, hkey⟩

theorem mem_buildIndex {α : Type} (posOf : α → V3) (objs : List α) (o : α) (k : ℤ × ℤ × ℤ) :
    o ∈ buildIndex posOf objs k ↔ o ∈ objs ∧ k = gridKey (posOf o) := by
  unfold buildIndex
  rw [mem_buildIndex_aux]
  simp

theorem mem_getNearby {α : Type} [DecidableEq α] (idx : (ℤ × ℤ × ℤ) → List α)
    (c : V3) (r : ℚ) (o : α) :
    o ∈ getNearby idx c r ↔
      ∃ dx dy dz : ℤ,
        (-(pyInt r) ≤ dx ∧ dx < pyInt r + 1) ∧
        (-(pyInt r) ≤ dy ∧ dy < pyInt r + 1) ∧
        (-(pyInt r) ≤ dz ∧ dz < pyInt r + 1) ∧
        o ∈ idx (pyInt c.1 + dx, pyInt c.2.1 + dy, pyInt c.2.2 + dz) := by
  unfold getNearby
  rw [List.mem_dedup]
  simp only [List.mem_flatMap, mem_intRange]
  constructor
  · rintro ⟨dx, hdx, dy, hdy, dz, hdz, hm⟩
    exact ⟨dx, dy, dz, hdx, hdy, hdz, hm⟩
  · rintro ⟨dx, dy, dz, hdx, hdy, hdz, hm⟩
    exact ⟨dx, hdx, dy, hdy, dz, hdz, hm⟩

theorem pyInt_natCast (n : ℕ) : pyInt ((n : ℕ) : ℚ) = n := by
  unfold pyInt
  rw [if_neg (not_lt.mpr (by positivity))]
  exact Int.floor_natCast n

theorem pyInt_sub_le (a b : ℚ) (n : ℤ) (hn : 0 ≤ n) (h : a - b ≤ (n : ℚ)) :
    pyInt a - pyInt b ≤ n := by
  unfold pyInt
  by_cases ha : a < 0 <;> by_cases hb : b < 0
  · rw [if_pos ha, if_pos hb]
    have hc : ⌈a⌉ ≤ ⌈b + (n : ℚ)⌉ := Int.ceil_mono (by linarith)
    rw [Int.ceil_add_int] at hc
    omega
  · rw [if_pos ha, if_neg hb]
    have h1 : ⌈a⌉ ≤ 0 := Int.ceil_le.mpr (by exact_mod_cast le_of_lt ha)
    have h2 : 0 ≤ ⌊b⌋ := Int.floor_nonneg.mpr (not_lt.mp hb)
    omega
  · rw [if_neg ha, if_pos hb]
    have h1 : (⌊a⌋ : ℚ) ≤ a := Int.floor_le a
    have h2 : (b : ℚ) ≤ (⌈b⌉ : ℚ) := Int.le_ceil b
    have hc : (⌊a⌋ : ℚ) - (⌈b⌉ : ℚ) ≤ (n : ℚ) := by linarith
    exact_mod_cast hc
  · rw [if_neg ha, if_neg hb]
    have hc : ⌊a⌋ ≤ ⌊b + (n : ℚ)⌋ := Int.floor_mono (by linarith)
    rw [Int.floor_add_int] at hc
    omega

theorem abs_pyInt_sub_le (a b : ℚ) (n : ℤ) (hn : 0 ≤ n) (h : |a - b| ≤ (n : ℚ)) :
    |pyInt a - pyInt b| ≤ n := by
  rw [abs_le] at h ⊢
  constructor
  · have := pyInt_sub_le b a n hn (by linarith)
    omega
  · exact pyInt_sub_le a b n hn (by linarith)

theorem distSq_axis_bounds (p q : V3) (n : ℚ) (hn : 0 ≤ n) (h : distSq p q ≤ n^2) :
    |p.1 - q.1| ≤ n ∧ |p.2.1 - q.2.1| ≤ n ∧ |p.2.2 - q.2.2| ≤ n := by
  unfold distSq at h
  refine ⟨?_, ?_, ?_⟩ <;>
    nlinarith [sq_abs (p.1 - q.1), sq_abs (p.2.1 - q.2.1), sq_abs (p.2.2 - q.2.2),
      abs_nonneg (p.1 - q.1), abs_nonneg (p.2.1 - q.2.1), abs_nonneg (p.2.2 - q.2.2),
      sq_nonneg (p.1 - q.1), sq_nonneg (p.2.1 - q.2.1), sq_nonneg (p.2.2 - q.2.2)]

/-- C5 (amended): for entities indexed by `_update_spatial_index` and a query
by `_get_nearby_objects`, (1) when the radius is an *integer* `n`, the result
contains every indexed entity whose Euclidean distance from the centre is at
most `n` (superset of the spherical result), and (2) for any radius `R` the
result contains no entity whose grid cell lies outside the cube of
`int(R) = ⌊R⌋` (truncation toward zero, not `⌈R⌉`) cells around the centre's
cell along each axis — cells being keyed by `int()` truncation of each
coordinate (not the floor, which differs on negative coordinates).  For
non-integer radii the superset property of the original claim fails
(`spatial_query_cube_cex`). -/
theorem spatial_query_cube (objs : List Entity) (e : Entity) (c : V3) (n : ℕ) (R : ℚ) :
    (e ∈ objs → distSq e.pos c ≤ ((n : ℚ))^2 →
      e ∈ getNearby (buildIndex Entity.pos objs) c ((n : ℕ) : ℚ)) ∧
    (e ∈ getNearby (buildIndex Entity.pos objs) c R →
      |pyInt e.pos.1 - pyInt c.1| ≤ pyInt R ∧
      |pyInt e.pos.2.1 - pyInt c.2.1| ≤ pyInt R ∧
      |pyInt e.pos.2.2 - pyInt c.2.2| ≤ pyInt R) := by
  constructor
  · intro he hd
    have hn0 : (0 : ℚ) ≤ (n : ℚ) := Nat.cast_nonneg n
    obtain ⟨h1, h2, h3⟩ := distSq_axis_bounds e.pos c (n : ℚ) hn0 hd
    have hb1 : |pyInt e.pos.1 - pyInt c.1| ≤ (n : ℤ) :=
      abs_pyInt_sub_le _ _ _ (Int.ofNat_nonneg n) (by exact_mod_cast h1)
    have hb2 : |pyInt e.pos.2.1 - pyInt c.2.1| ≤ (n : ℤ) :=
      abs_pyInt_sub_le _ _ _ (Int.ofNat_nonneg n) (by exact_mod_cast h2)
    have hb3 : |pyInt e.pos.2.2 - pyInt c.2.2| ≤ (n : ℤ) :=
      abs_pyInt_sub_le _ _ _ (Int.ofNat_nonneg n) (by exact_mod_cast h3)
    rw [abs_le] at hb1 hb2 hb3
    rw [mem_getNearby]
    refine ⟨pyInt e.pos.1 - pyInt c.1, pyInt e.pos.2.1 - pyInt c.2.1,
            pyInt e.pos.2.2 - pyInt c.2.2, ?_, ?_, ?_, ?_⟩
    · rw [pyInt_natCast]
      omega
    · rw [pyInt_natCast]
      omega
    · rw [pyInt_natCast]
      omega
    · have k1 : pyInt c.1 + (pyInt e.pos.1 - pyInt c.1) = pyInt e.pos.1 := by ring
      have k2 : pyInt c.2.1 + (pyInt e.pos.2.1 - pyInt c.2.1) = pyInt e.pos.2.1 := by ring
      have k3 : pyInt c.2.2 + (pyInt e.pos.2.2 - pyInt c.2.2) = pyInt e.pos.2.2 := by ring
      rw [k1, k2, k3, mem_buildIndex]
      exact ⟨he, rfl⟩
  · intro hm
    rw [mem_getNearby] at hm
    obtain ⟨dx, dy, dz, hdx, hdy, hdz, hcell⟩ := hm
    rw [mem_buildIndex] at hcell
    obtain ⟨-, hkey⟩ := hcell
    simp only [gridKey, Prod.mk.injEq] at hkey
    obtain ⟨k1, k2, k3⟩ := hkey
    refine ⟨?_, ?_, ?_⟩ <;> rw [abs_le] <;> omega

/-- Concrete entity exercising the C5 witness. -/
def entW : Entity := { id := 0, pos := (1, 2, 3) }

/-- Witness for C5 (amended) at a concrete population and integer radius. -/
theorem spatial_query_cube_witness :
    entW ∈ getNearby (buildIndex Entity.pos [entW]) (0, 0, 0) ((4 : ℕ) : ℚ) ∧
    |pyInt entW.pos.1 - pyInt (0 : ℚ)| ≤ pyInt ((4 : ℕ) : ℚ) := by
  have hmem := (spatial_query_cube [entW] entW (0, 0, 0) 4 ((4 : ℕ) : ℚ)).1
    (by simp) (by with_unfolding_all decide)
  exact ⟨hmem, ((spatial_query_cube [entW] entW (0, 0, 0) 4 ((4 : ℕ) : ℚ)).2 hmem).1⟩

/-- Concrete entity refuting C5 as stated. -/
def entCex : Entity := { id := 0, pos := (23/10, 0, 0) }

/-- C5 counterexample: with the query centre at (0.9, 0, 0) and radius 1.5,
the entity at (2.3, 0, 0) is within Euclidean distance 1.5 (distance 1.4)
but `_get_nearby_objects` misses it: the scan only covers `int(1.5) = 1`
cell around cell 0, while the entity sits in cell 2 — the cube-query result
is not a superset of the spherical result. -/
theorem spatial_query_cube_cex :
    distSq entCex.pos (9/10, 0, 0) ≤ (3/2 : ℚ)^2 ∧
    entCex ∉ getNearby (buildIndex Entity.pos [entCex]) (9/10, 0, 0) (3/2) := by
  with_unfolding_all decide

/-- C7 (amended): when both robots' energies are at least the *initiator's*
`reproduction_threshold`, `Robot.reproduce` returns exactly one child whose
color is the element-wise mean of the parents' colors; the initiating
parent's `offspring_produced` is incremented and its state becomes
Reproducing, but the partner is returned unchanged — its stats and state are
not touched by the source. -/
theorem reproduce_success (A B : Robot) (cid : ℕ)
    (h1 : A.reproductionThreshold ≤ A.energy) (h2 : A.reproductionThreshold ≤ B.energy) :
    Robot.reproduce A B cid =
      (some { id := cid, pos := A.pos,
              color := ((A.color.1 + B.color.1) / 2, (A.color.2.1 + B.color.2.1) / 2,
                        (A.color.2.2 + B.color.2.2) / 2),
              energy := A.maxEnergy, maxEnergy := A.maxEnergy,
              movementCost := A.movementCost,
              reproductionThreshold := A.reproductionThreshold,
              connections := [], state := RobotState.idle, stats := statsZero },
       { A with state := RobotState.reproducing,
                stats := { A.stats with offspringProduced := A.stats.offspringProduced + 1 } },
       B) := by
  unfold Robot.reproduce
  rw [if_neg]
  push_neg
  exact ⟨h1, h2⟩

/-- Initiating parent for the C7 theorems. -/
def rA7 : Robot :=
  { id := 0, pos := (0, 0, 0), color := (0, 0, 0), energy := 50, maxEnergy := 100,
    movementCost := 1, reproductionThreshold := 20, connections := [],
    state := RobotState.idle, stats := statsZero }

/-- Partner for the C7 theorems. -/
def rB7 : Robot :=
  { id := 1, pos := (1/2, 0, 0), color := (1, 1, 1), energy := 50, maxEnergy := 100,
    movementCost := 1, reproductionThreshold := 20, connections := [],
    state := RobotState.idle, stats := statsZero }

/-- Witness for C7 (amended): energies 50 against threshold 20. -/
theorem reproduce_success_witness :
    Robot.reproduce rA7 rB7 2 =
      (some { id := 2, pos := rA7.pos,
              color := ((rA7.color.1 + rB7.color.1) / 2, (rA7.color.2.1 + rB7.color.2.1) / 2,
                        (rA7.color.2.2 + rB7.color.2.2) / 2),
              energy := rA7.maxEnergy, maxEnergy := rA7.maxEnergy,
              movementCost := rA7.movementCost,
              reproductionThreshold := rA7.reproductionThreshold,
              connections := [], state := RobotState.idle, stats := statsZero },
       { rA7 with state := RobotState.reproducing,
                  stats := { rA7.stats with
                    offspringProduced := rA7.stats.offspringProduced + 1 } },
       rB7) :=
  reproduce_success rA7 rB7 2 (by norm_num [rA7]) (by norm_num [rA7, rB7])

/-- C7 counterexample: with both parents at energy 50 and threshold 20,
the partner comes back with state still Idle and `offspring_produced` still
0 — `reproduce` does not set the partner's state to Reproducing nor
increment its offspring counter (only the initiator's). -/
theorem reproduce_partner_untouched_cex :
    ¬ ((Robot.reproduce rA7 rB7 2).2.2.state = RobotState.reproducing ∧
       (Robot.reproduce rA7 rB7 2).2.2.stats.offspringProduced =
         rB7.stats.offspringProduced + 1) := by
  with_unfolding_all decide

/-- C8 (amended): an action code outside {0,...,6} performs no motion — the
position is unchanged — but it is *not* equivalent to action 0: the robot
still pays `movement_cost` energy (floored at 0), its `energy_consumed` and
`lifetime` stats are incremented (`distance_traveled` grows by 0), and its
state becomes Moving (or Dead when the energy floor is hit). -/
theorem act_unmapped (r : Robot) (a : ℤ) (h0 : a ≠ 0) (h16 : a < 1 ∨ 6 < a) :
    Robot.act r a =
      { r with
        energy := max 0 (r.energy - r.movementCost),
        state := if max 0 (r.energy - r.movementCost) ≤ 0 then RobotState.dead
                 else RobotState.moving,
        stats := { r.stats with
          distanceTraveled := r.stats.distanceTraveled + 0,
          energyConsumed := r.stats.energyConsumed + r.movementCost,
          lifetime := r.stats.lifetime + 1 } } := by
  have h1 : a ≠ 1 := by omega
  have h2 : a ≠ 2 := by omega
  have h3 : a ≠ 3 := by omega
  have h4 : a ≠ 4 := by omega
  have h5 : a ≠ 5 := by omega
  have h6 : a ≠ 6 := by omega
  have h7 : ¬(1 ≤ a ∧ a ≤ 6) := by omega
  unfold Robot.act
  rw [if_neg h0]
  simp only [if_neg h1, if_neg h2, if_neg h3, if_neg h4, if_neg h5, if_neg h6, h7,
    if_false]

/-- Robot exercising the C8 theorems. -/
def rC8 : Robot :=
  { id := 3, pos := (2, 0, 0), color := (1/5, 4/5, 1/5), energy := 100, maxEnergy := 100,
    movementCost := 1, reproductionThreshold := 20, connections := [],
    state := RobotState.idle, stats := statsZero }

/-- Witness for C8 (amended) at action code 7. -/
theorem act_unmapped_witness :
    Robot.act rC8 7 =
      { rC8 with
        energy := max 0 (rC8.energy - rC8.movementCost),
        state := if max 0 (rC8.energy - rC8.movementCost) ≤ 0 then RobotState.dead
                 else RobotState.moving,
        stats := { rC8.stats with
          distanceTraveled := rC8.stats.distanceTraveled + 0,
          energyConsumed := rC8.stats.energyConsumed + rC8.movementCost,
          lifetime := rC8.stats.lifetime + 1 } } :=
  act_unmapped rC8 7 (by norm_num) (by norm_num)

/-- C8 counterexample: action 7, claimed to behave like action 0, leaves the
position unchanged but consumes one unit of energy, bumps the lifetime stat
and sets state Moving — not a no-op. -/
theorem act_unmapped_cex :
    (Robot.act rC8 7).pos = rC8.pos ∧
    (Robot.act rC8 7).energy ≠ rC8.energy ∧
    (Robot.act rC8 7).stats.lifetime ≠ rC8.stats.lifetime ∧
    (Robot.act rC8 7).state = RobotState.moving := by
  with_unfolding_all decide

/-- C9: a `StaticElement` whose `is_collectible` flag is false yields 0.0
from `collect()` and the element is returned entirely unchanged — value, use
counter, respawn timer and collectible flag included. -/
theorem collect_not_collectible (e : StaticElement) (h : e.isCollectible = false) :
    StaticElement.collect e = (0, e) := by
  unfold StaticElement.collect
  rw [h]
  simp

/-- A non-collectible resource for the C9 witness. -/
def eNC : StaticElement :=
  { pos := (5, 0, 0), color := (9/10, 3/5, 1/10), resourceValue := 20,
    propValue := 20, decayRate := 0, respawnTime := some 5, maxUses := some 3,
    currentUses := 1, isObstacle := false, isCollectible := false,
    respawnTimer := none }

/-- Witness for C9 at a concrete non-collectible element. -/
theorem collect_not_collectible_witness : StaticElement.collect eNC = (0, eNC) :=
  collect_not_collectible eNC rfl

/-- A brain that always answers the no-op action 0. -/
def brainNoop : List ℚ → Except Unit ℤ := fun _ => Except.ok 0

/-- A brain that always raises (e.g. `RLBrain.decide_action` on a
wrong-length observation). -/
def brainErr : List ℚ → Except Unit ℤ := fun _ => Except.error ()

/-- The robot of the C3 world. -/
def rC3 : Robot :=
  { id := 0, pos := (0, 0, 0), color := (1/5, 4/5, 1/5), energy := 100, maxEnergy := 100,
    movementCost := 1, reproductionThreshold := 20, connections := [],
    state := RobotState.idle, stats := statsZero }

/-- The resource of the C3 world, 3 units from the robot (inside the
10-unit perception radius, outside the 1-unit collection radius). -/
def eC3 : StaticElement :=
  { pos := (3, 0, 0), color := (9/10, 3/5, 1/10), resourceValue := 20,
    propValue := 20, decayRate := 0, respawnTime := none, maxUses := none,
    currentUses := 0, isObstacle := false, isCollectible := true,
    respawnTimer := none }

/-- A freshly constructed world (empty spatial index, as `World.__init__`
leaves it) with one robot and one resource. -/
def wC3 : World :=
  { robots := [0], store := fun _ => rC3, staticElements := [eC3],
    brains := fun _ => brainNoop, stats := worldStatsZero, timeStep := 0,
    spatialIndex := fun _ => [], nextId := 1 }

/-- C3 (code bug): `World.step` increments the step counter but never
rebuilds the spatial index — `_update_spatial_index` exists but is never
called from `step` — so on a freshly constructed world the index is still
empty after a full step, and the robot's `perceive` (which queries the index
with radius 10) reports no nearest resource (zeros) even though a resource
sits 3 units away; rebuilding the index (`World.updateSpatialIndex`, the
embedding of `_update_spatial_index`) would have put that resource inside
the very same query's result. -/
theorem step_never_rebuilds_spatial_index :
    (∃ w1, World.step 10 wC3 = PRes.val w1 ∧ (∀ k, w1.spatialIndex k = []) ∧
        w1.stats.steps = 1) ∧
    World.perceive wC3 0 = [0, 0, 0, 0, 0, 0, 1, 0, 1/5] ∧
    WObj.elt 0 ∈ getNearby (World.updateSpatialIndex wC3).spatialIndex rC3.pos 10 := by
  refine ⟨by with_unfolding_all exact ⟨_, rfl, fun _ => rfl, rfl⟩, ?_, ?_⟩
  · with_unfolding_all decide
  · with_unfolding_all decide

theorem stepAux_cons_exn (fuel : ℕ) (rid : ℕ) (rest : List ℕ) (w : World)
    (h : w.stepOne fuel rid = PRes.exn) :
    World.stepAux fuel (rid :: rest) w = PRes.exn := by
  unfold World.stepAux
  rw [h]

theorem stepOne_exn (w : World) (fuel : ℕ) (rid : ℕ)
    (hstate : (w.store rid).state ≠ RobotState.dead)
    (hb : w.brains rid (w.perceive rid) = Except.error ()) :
    World.stepOne w fuel rid = PRes.exn := by
  unfold World.stepOne
  rw [if_neg hstate, hb]

/-- C4 (amended): `World.step` has no per-agent exception handling: if the
first live robot's brain raises (e.g. on a wrong-length observation), the
exception propagates out of `step()` — the step produces no world at all and
the remaining robots of that step are never processed. -/
theorem step_propagates_brain_error (fuel : ℕ) (w : World) (rid : ℕ) (rest : List ℕ)
    (hr : w.robots = rid :: rest)
    (hstate : (w.store rid).state ≠ RobotState.dead)
    (hb : ∀ obs, w.brains rid obs = Except.error ()) :
    World.step fuel w = PRes.exn := by
  unfold World.step
  rw [hr]
  exact stepAux_cons_exn fuel rid rest _ (stepOne_exn _ fuel rid hstate (hb _))

/-- The robot of the C4 world. -/
def rC4 : Robot :=
  { id := 0, pos := (0, 0, 0), color := (1/5, 4/5, 1/5), energy := 100, maxEnergy := 100,
    movementCost := 1, reproductionThreshold := 20, connections := [],
    state := RobotState.idle, stats := statsZero }

/-- A world whose only robot has a brain that raises on every observation. -/
def wC4 : World :=
  { robots := [0], store := fun _ => rC4, staticElements := [],
    brains := fun _ => brainErr, stats := worldStatsZero, timeStep := 0,
    spatialIndex := fun _ => [], nextId := 1 }

/-- C4 counterexample: a raising brain is *not* caught — `World.step`
propagates the exception instead of skipping the robot's turn and
continuing. -/
theorem step_exception_cex : World.step 10 wC4 = PRes.exn := by
  with_unfolding_all rfl

/-- Witness for C4 (amended) on the concrete raising-brain world. -/
theorem step_propagates_brain_error_witness : World.step 5 wC4 = PRes.exn :=
  step_propagates_brain_error 5 wC4 0 [] rfl (by decide) (fun obs => rfl)

/-- First robot of the C6 world; connected to robot 1 at level WEAK. -/
def rA6 : Robot :=
  { id := 0, pos := (0, 0, 0), color := (1/5, 4/5, 1/5), energy := 100, maxEnergy := 100,
    movementCost := 1, reproductionThreshold := 20, connections := [(1, 1)],
    state := RobotState.idle, stats := statsZero }

/-- Second robot of the C6 world; connected back to robot 0 at level WEAK. -/
def rB6 : Robot :=
  { id := 1, pos := (1, 0, 0), color := (1/5, 4/5, 1/5), energy := 100, maxEnergy := 100,
    movementCost := 1, reproductionThreshold := 20, connections := [(0, 1)],
    state := RobotState.idle, stats := statsZero }

/-- A world with two mutually connected robots. -/
def wC6 : World :=
  { robots := [0, 1], store := fun t => if t = 0 then rA6 else rB6,
    staticElements := [], brains := fun _ => brainNoop, stats := worldStatsZero,
    timeStep := 0, spatialIndex := fun _ => [], nextId := 2 }

/-- C6 counterexample: after `World.remove_robot` removes robot 0, the
surviving robot 1 still holds robot 0 in its connection map even though 0 is
no longer a member of `World.robots` — removal does not purge connection
maps. -/
theorem remove_robot_cex :
    (0 : ℕ) ∉ (World.removeRobot wC6 0).robots ∧
    (1 : ℕ) ∈ (World.removeRobot wC6 0).robots ∧
    dlookup 0 ((World.removeRobot wC6 0).store 1).connections = some 1 := by
  with_unfolding_all decide

/-- C6 (amended): `World.remove_robot` removes the robot from
`World.robots` and bumps the destroyed counter, but leaves every robot
object (in particular every connection map) completely untouched — it does
not purge the removed robot from other robots' connection maps (the same
holds for the dead-robot pruning in `step`, which just calls
`remove_robot`). -/
theorem remove_robot_no_purge (w : World) (rid : ℕ) (hmem : rid ∈ w.robots) :
    (World.removeRobot w rid).store = w.store ∧
    (World.removeRobot w rid).robots = w.robots.erase rid ∧
    (World.removeRobot w rid).stats.robotsDestroyed = w.stats.robotsDestroyed + 1 := by
  unfold World.removeRobot
  rw [if_pos hmem]
  exact ⟨rfl, rfl, rfl⟩

/-- Witness for C6 (amended) on the concrete two-robot world. -/
theorem remove_robot_no_purge_witness :
    (World.removeRobot wC6 0).store = wC6.store ∧
    (World.removeRobot wC6 0).robots = wC6.robots.erase 0 ∧
    (World.removeRobot wC6 0).stats.robotsDestroyed = wC6.stats.robotsDestroyed + 1 :=
  remove_robot_no_purge wC6 0 (by decide)
